import Mathlib

/-!
Verification of the CRT Audio Oscilloscope pipeline
(`src/crt_audio_oscilloscope.py`).

The file shallowly embeds the parts of the program that the specification
talks about:

* the bounded hand-off queue (`self.audio_queue = queue.Queue(maxsize=10)`
  together with the producer's `put_nowait` under
  `try ... except queue.Full: pass` and the consumer's `get`), modelled as
  a list of blocks with explicit enqueue/dequeue functions;
* the gain-and-clamp transform of the audio callback
  (`data = np.clip(data * self.gain, -1, 1)`), modelled over exact
  rationals;
* `load_config` / `save_config`, modelled as functions over an explicit
  file state (missing, well-formed record with optional fields, or
  malformed content) together with an `os.remove` step that can fail;
* `get_device`, modelled over a device table and an explicit stream of
  user inputs;
* the `run` method's stream-open error path, modelled as the trace of
  observable events it produces.

Samples and settings values are modelled as rationals (`ℚ`): the
program's arithmetic on them (multiplication, comparison with ±1,
round-tripping through the settings file) is exact at the granularity of
the properties considered here.
-/

namespace CRTOsc

/-! ### The hand-off queue (`self.audio_queue = queue.Queue(maxsize=10)`) -/

/-- One audio block: the fixed-length sequence of samples handed from the
capture callback to the render loop. -/
abbrev Block := List ℚ

/-- Queue capacity: `queue.Queue(maxsize=10)`. -/
def capacity : Nat := 10

/-- Result of the producer's non-blocking enqueue attempt. -/
inductive PutResult where
  | enqueued
  | dropped
deriving DecidableEq, Repr

/-- `put_nowait` wrapped in `try ... except queue.Full: pass`: if the queue
is below capacity the block is appended at the tail, otherwise the queue is
left unchanged and the block is reported dropped. -/
def put_nowait (q : List Block) (b : Block) : List Block × PutResult :=
  if q.length < capacity then (q ++ [b], .enqueued) else (q, .dropped)

/-- The consumer's `get`: removes and returns the head (oldest) block, or
reports the queue empty (the `queue.Empty` timeout in the render loop). -/
def queue_get (q : List Block) : Option Block × List Block :=
  match q with
  | [] => (none, [])
  | b :: rest => (some b, rest)

/-- One operation on the queue: a producer enqueue or a consumer dequeue. -/
inductive QOp where
  | put (b : Block)
  | get
deriving DecidableEq, Repr

/-- The queue state after one operation. -/
def qstep (q : List Block) : QOp → List Block
  | .put b => (put_nowait q b).1
  | .get => (queue_get q).2

/-- The queue state after a whole sequence of operations. -/
def runOps (q : List Block) (ops : List QOp) : List Block :=
  ops.foldl qstep q

/-- Enqueue a whole list of blocks, producer-only. -/
def enqueueAll (q : List Block) (bs : List Block) : List Block :=
  bs.foldl (fun q b => (put_nowait q b).1) q

/-! ### The capture callback's gain-and-clamp transform
(`data = np.clip(data * self.gain, -1, 1)`) -/

/-- `np.clip(x, lo, hi)`, i.e. `np.minimum(hi, np.maximum(x, lo))` applied
elementwise. -/
def np_clip (x lo hi : ℚ) : ℚ := min hi (max x lo)

/-- The value the callback stores for one raw sample `s` under gain `g`:
`np.clip(s * gain, -1, 1)`. -/
def storedSample (g s : ℚ) : ℚ := np_clip (s * g) (-1) 1

/-- The callback body: on an empty block (`len(indata) == 0`) it warns and
performs no hand-off; otherwise it takes the first channel, applies gain
and clamping, and attempts a non-blocking enqueue. -/
def audio_callback (g : ℚ) (indata : Block) (q : List Block) : List Block :=
  if indata.length = 0 then q
  else (put_nowait q (indata.map (storedSample g))).1

/-! ### Settings persistence (`load_config` / `save_config`)

The settings file is modelled by an explicit state: absent, a well-formed
JSON object whose three known fields are each present or absent, or
malformed content (anything that makes `json.load` or the `float(...)`
coercions raise). `os.remove` on the corrupt-recovery path is modelled by
a flag saying whether the removal itself succeeds; when it raises, the
exception escapes `load_config`, whose `try` block has already ended. -/

/-- A well-formed persisted record: each of the three known fields may be
present or absent. -/
structure ConfigRec where
  device_index : Option Int
  gain : Option ℚ
  smoothing : Option ℚ
deriving DecidableEq, Repr

/-- The state of `CONFIG_FILE` on disk. -/
inductive FileState where
  | missing
  | wellFormed (r : ConfigRec)
  | malformed (raw : String)
deriving DecidableEq, Repr

/-- The dictionary `load_config` returns: `{}` when the file is absent or
was corrupt, otherwise a dictionary with exactly the three keys. -/
inductive LoadResult where
  | empty
  | config (device_index : Int) (gain smoothing : ℚ)
deriving DecidableEq, Repr

/-- `load_config()`: if the file exists and parses, build the dictionary
with `config.get("device_index", 0)`, `float(config.get("gain", 1.0))`,
`float(config.get("smoothing", 0.8))`; on any exception delete the file
and return `{}`; on a missing file return `{}`. The `removeOk` flag says
whether the `os.remove` in the handler succeeds; if it raises, that
exception propagates out of `load_config`. -/
def load_config (fs : FileState) (removeOk : Bool) :
    Except String (LoadResult × FileState) :=
  match fs with
  | .missing => .ok (.empty, .missing)
  | .wellFormed r =>
      .ok (.config (r.device_index.getD 0) (r.gain.getD 1)
            (r.smoothing.getD (8 / 10)), .wellFormed r)
  | .malformed _ =>
      if removeOk then .ok (.empty, .missing)
      else .error "os.remove raised"

/-- The in-memory settings dictionary passed to `save_config`: the three
canonical fields, all present. -/
structure SettingsDict where
  device_index : Int
  gain : ℚ
  smoothing : ℚ
deriving DecidableEq, Repr

/-- `save_config(config)` on the successful path: writes exactly the three
canonical fields (`device_index` as-is, `gain` and `smoothing` coerced to
float) over whatever file state was there before. -/
def save_config (s : SettingsDict) (_fs : FileState) : FileState :=
  .wellFormed ⟨some s.device_index, some s.gain, some s.smoothing⟩

/-- `self.config.get("device_index")` in `__init__` (no default). -/
def cfgGet_device_index : LoadResult → Option Int
  | .empty => none
  | .config d _ _ => some d

/-- `self.config.get("gain", 1.0)` in `__init__`. -/
def cfgGet_gain : LoadResult → ℚ
  | .empty => 1
  | .config _ g _ => g

/-- `self.config.get("smoothing", 0.8)` in `__init__`. -/
def cfgGet_smoothing : LoadResult → ℚ
  | .empty => 8 / 10
  | .config _ _ sm => sm

/-! ### Device selection (`get_device`) -/

/-- One entry of `sd.query_devices()`: the fields `get_device` reads. -/
structure Device where
  name : String
  max_input_channels : Int
deriving DecidableEq, Repr

/-- `valid_devices = [(i, d["name"]) for i, d in enumerate(sd.query_devices())
if d["max_input_channels"] > 0]`. -/
def valid_devices (devs : List Device) : List (Nat × String) :=
  (devs.enum.filter (fun p => 0 < p.2.max_input_channels)).map
    (fun p => (p.1, p.2.name))

/-- One line typed at the selection prompt: empty (accept the default),
a numeral, or text on which `int(...)` raises `ValueError`. -/
inductive UserInput where
  | empty
  | numeric (n : Int)
  | nonNumeric
deriving DecidableEq, Repr

/-- `int(input(...) or valid_devices[0][0])`: an empty line yields the
first eligible device's index, a numeral yields its value, and anything
else raises `ValueError` (modelled as `none`, caught by the loop). -/
def parse_selection (vd : List (Nat × String)) : UserInput → Option Int
  | .empty => some (vd.headI.1 : Int)
  | .numeric n => some n
  | .nonNumeric => none

/-- The `while True` selection loop, driven by the remaining user inputs:
a parsed selection is returned only when
`any(selected == dev[0] for dev in valid_devices)`; every other input
re-prompts. `none` means the inputs ran out with the loop still waiting. -/
def promptLoop (vd : List (Nat × String)) : List UserInput → Option Int
  | [] => none
  | inp :: rest =>
      match parse_selection vd inp with
      | none => promptLoop vd rest
      | some n =>
          if vd.any (fun dev => n == (dev.1 : Int)) then some n
          else promptLoop vd rest

/-- `get_device(saved_device)`: raises when no input-capable device
exists; returns the saved index directly when it is eligible; otherwise
enters the selection loop. -/
def get_device (devs : List Device) (saved : Option Int)
    (inputs : List UserInput) : Except String (Option Int) :=
  let vd := valid_devices devs
  if vd = [] then .error "No valid microphone devices found."
  else
    match saved with
    | some s =>
        if vd.any (fun dev => s == (dev.1 : Int)) then .ok (some s)
        else .ok (promptLoop vd inputs)
    | none => .ok (promptLoop vd inputs)

/-- The device resolution performed by `__init__`:
`get_device(self.config.get("device_index"))` after `load_config()`. -/
def startup_device (fs : FileState) (devs : List Device)
    (inputs : List UserInput) : Except String (Option Int) :=
  match load_config fs true with
  | .error e => .error e
  | .ok (res, _) => get_device devs (cfgGet_device_index res) inputs

/-! ### The `run` method's observable behaviour -/

/-- Observable events of `run`: the stream-open error report (the two
`print` lines suggesting a different microphone), a rendered frame
(`set_ydata` / redraw), and a `save_config` call with its arguments. -/
inductive Event where
  | reportStreamError
  | renderFrame (b : Block)
  | saveEvent (device_index : Int) (gain smoothing : ℚ)
deriving DecidableEq, Repr

/-- Whether an event is a `save_config` call. -/
def Event.isSave : Event → Bool
  | .saveEvent _ _ _ => true
  | _ => false

/-- Whether an event is a rendered frame. -/
def Event.isRender : Event → Bool
  | .renderFrame _ => true
  | _ => false

/-- The render loop entered when the stream opened: each iteration either
renders the next queued block or idles on `queue.Empty`. -/
def renderLoop : Nat → List Block → List Event
  | 0, _ => []
  | n + 1, [] => renderLoop n []
  | n + 1, b :: rest => .renderFrame b :: renderLoop n rest

/-- `run()`: opening the stream either succeeds (the render loop runs for
`iters` window-alive iterations over the queued blocks) or raises, in
which case the handler prints the stream-open report; in both cases
control then falls through to the single trailing `save_config`, and
`run` returns normally to its caller. -/
def run (openOk : Bool) (iters : Nat) (qblocks : List Block)
    (dev : Int) (g sm : ℚ) : List Event :=
  (if openOk then renderLoop iters qblocks else [.reportStreamError])
    ++ [.saveEvent dev g sm]

/-! ## Lemmas -/

lemma qstep_length_le (q : List Block) (op : QOp) (h : q.length ≤ capacity) :
    (qstep q op).length ≤ capacity := by
  cases op with
  | put b =>
      simp only [qstep, put_nowait]
      split
      · next hlt => simpa using hlt
      · simpa using h
  | get =>
      cases q with
      | nil => simp_all [qstep, queue_get]
      | cons b rest =>
          simp only [qstep, queue_get]
          exact le_trans (Nat.le_succ _) (by simpa using h)

lemma runOps_length_le (ops : List QOp) (q : List Block)
    (h : q.length ≤ capacity) : (runOps q ops).length ≤ capacity := by
  induction ops generalizing q with
  | nil => simpa [runOps] using h
  | cons op rest ih =>
      simpa [runOps, List.foldl_cons] using ih _ (qstep_length_le q op h)

lemma enqueueAll_eq (bs : List Block) (q : List Block) :
    enqueueAll q bs = q ++ bs.take (capacity - q.length) := by
  induction bs generalizing q with
  | nil => simp [enqueueAll]
  | cons b rest ih =>
      by_cases hlt : q.length < capacity
      · have hpos : 0 < capacity - q.length := Nat.sub_pos_of_lt hlt
        obtain ⟨k, hk⟩ : ∃ k, capacity - q.length = k + 1 :=
          ⟨capacity - q.length - 1, by omega⟩
        have hk' : capacity - (q ++ [b]).length = k := by
          simp only [List.length_append, List.length_singleton]
          omega
        calc enqueueAll q (b :: rest)
            = enqueueAll (q ++ [b]) rest := by
              simp [enqueueAll, put_nowait, hlt]
          _ = (q ++ [b]) ++ rest.take (capacity - (q ++ [b]).length) := ih _
          _ = q ++ (b :: rest).take (capacity - q.length) := by
              rw [hk', hk, List.take_succ_cons]
              simp [List.append_assoc]
      · have hz : capacity - q.length = 0 := by omega
        calc enqueueAll q (b :: rest)
            = enqueueAll q rest := by simp [enqueueAll, put_nowait, hlt]
          _ = q ++ rest.take (capacity - q.length) := ih _
          _ = q ++ (b :: rest).take (capacity - q.length) := by simp [hz]

lemma np_clip_mem (x : ℚ) : -1 ≤ np_clip x (-1) 1 ∧ np_clip x (-1) 1 ≤ 1 := by
  constructor
  · exact le_min (by norm_num) (le_max_right x (-1))
  · exact min_le_left 1 (max x (-1))

lemma np_clip_of_mem (y : ℚ) (h₁ : -1 ≤ y) (h₂ : y ≤ 1) :
    np_clip y (-1) 1 = y := by
  unfold np_clip
  rw [max_eq_left h₁, min_eq_right h₂]

lemma promptLoop_sound (vd : List (Nat × String)) (inputs : List UserInput)
    (n : Int) (h : promptLoop vd inputs = some n) :
    vd.any (fun dev => n == (dev.1 : Int)) = true := by
  induction inputs with
  | nil => simp [promptLoop] at h
  | cons inp rest ih =>
      cases inp with
      | nonNumeric =>
          simp only [promptLoop, parse_selection] at h
          exact ih h
      | empty =>
          simp only [promptLoop, parse_selection] at h
          split at h
          · next hm => cases h; exact hm
          · next hm => exact ih h
      | numeric m =>
          simp only [promptLoop, parse_selection] at h
          split at h
          · next hm => cases h; exact hm
          · next hm => exact ih h

/-! ## Claim theorems -/

/-- C1: for every sequence of producer enqueues and consumer dequeues
starting from a state within capacity, the queue's size never exceeds
`capacity = 10`; an enqueue into a full queue leaves the queue unchanged
and reports `dropped`; and enqueuing 11 blocks into the empty queue with
no consumer draining retains exactly the first 10 blocks, in FIFO order,
with the 11th enqueue reported `dropped`. -/
theorem handoff_queue_bounded_newest_drop :
    (∀ (q : List Block) (ops : List QOp),
        q.length ≤ capacity → (runOps q ops).length ≤ capacity)
  ∧ (∀ (q : List Block) (b : Block),
        q.length = capacity → put_nowait q b = (q, .dropped))
  ∧ (∀ bs : List Block, bs.length = 11 →
        enqueueAll [] (bs.take 10) = bs.take 10
      ∧ (enqueueAll [] (bs.take 10)).length = 10
      ∧ ∀ b : Block, put_nowait (enqueueAll [] (bs.take 10)) b
          = (bs.take 10, .dropped)) := by
  refine ⟨fun q ops h => runOps_length_le ops q h, ?_, ?_⟩
  · intro q b h
    simp [put_nowait, h]
  · intro bs hlen
    have htake : enqueueAll [] (bs.take 10) = bs.take 10 := by
      rw [enqueueAll_eq]
      simp [capacity, List.take_take]
    have hten : (bs.take 10).length = 10 := by
      simp [List.length_take, hlen]
    refine ⟨htake, by rw [htake]; exact hten, fun b => ?_⟩
    rw [htake]
    simp [put_nowait, hten, capacity]

/-- Witness for C1 at a concrete run: 11 concrete one-sample blocks. -/
theorem handoff_queue_bounded_newest_drop_witness :
    (runOps [] ((List.range 11).map (fun n => QOp.put [(n : ℚ)]))).length
        ≤ capacity
  ∧ put_nowait ((List.range 10).map (fun n => [(n : ℚ)])) [11]
      = ((List.range 10).map (fun n => [(n : ℚ)]), .dropped)
  ∧ enqueueAll [] (((List.range 11).map (fun n => ([(n : ℚ)] : Block))).take 10)
      = ((List.range 11).map (fun n => ([(n : ℚ)] : Block))).take 10 := by
  refine ⟨handoff_queue_bounded_newest_drop.1 [] _ (by simp), ?_, ?_⟩
  · exact handoff_queue_bounded_newest_drop.2.1 _ _ (by rfl)
  · exact (handoff_queue_bounded_newest_drop.2.2
      ((List.range 11).map (fun n => [(n : ℚ)])) (by rfl)).1

/-- C2: every stored sample `clamp(s * g)` lies in `[-1, 1]`; clamping is
idempotent; with gain `2.0` a raw sample `0.6` is stored as `1.0` and a raw
sample `-0.3` is stored as `-0.6`; and on a non-empty block the callback
enqueues exactly the block of clamped, gain-scaled samples. -/
theorem stored_sample_clamped_idempotent :
    (∀ g s : ℚ, -1 ≤ storedSample g s ∧ storedSample g s ≤ 1)
  ∧ (∀ x : ℚ, np_clip (np_clip x (-1) 1) (-1) 1 = np_clip x (-1) 1)
  ∧ storedSample 2 (6 / 10) = 1
  ∧ storedSample 2 (-(3 / 10)) = -(6 / 10)
  ∧ (∀ (g : ℚ) (indata : Block) (q : List Block), indata.length ≠ 0 →
        audio_callback g indata q
          = (put_nowait q (indata.map (storedSample g))).1) := by
  refine ⟨fun g s => np_clip_mem _, ?_, ?_, ?_, ?_⟩
  · intro x
    exact np_clip_of_mem _ (np_clip_mem x).1 (np_clip_mem x).2
  · unfold storedSample np_clip
    norm_num [min_def, max_def]
  · unfold storedSample np_clip
    norm_num [min_def, max_def]
  · intro g indata q h
    simp [audio_callback, h]

/-- Witness for C2's quantified conjuncts at concrete inputs. -/
theorem stored_sample_clamped_idempotent_witness :
    (-1 ≤ storedSample 2 (6 / 10) ∧ storedSample 2 (6 / 10) ≤ 1)
  ∧ np_clip (np_clip (7 / 2) (-1) 1) (-1) 1 = np_clip (7 / 2) (-1) 1
  ∧ audio_callback 2 [6 / 10] []
      = (put_nowait [] ([(6 : ℚ) / 10].map (storedSample 2))).1 :=
  ⟨stored_sample_clamped_idempotent.1 2 (6 / 10),
   stored_sample_clamped_idempotent.2.1 (7 / 2),
   stored_sample_clamped_idempotent.2.2.2.2 2 [6 / 10] [] (by norm_num)⟩

/-- C3: saving a valid settings dictionary (integer `device_index ≥ 0`,
`gain ∈ [0.5, 50]`, `smoothing ∈ [0, 0.99]`) and loading again returns
exactly the saved dictionary, whatever file state was there before and
whether or not `os.remove` would succeed. -/
theorem load_after_save_roundtrip (s : SettingsDict) (fs : FileState)
    (rm : Bool) (_hd : 0 ≤ s.device_index)
    (_hg₁ : 1 / 2 ≤ s.gain) (_hg₂ : s.gain ≤ 50)
    (_hs₁ : 0 ≤ s.smoothing) (_hs₂ : s.smoothing ≤ 99 / 100) :
    load_config (save_config s fs) rm
      = .ok (.config s.device_index s.gain s.smoothing, save_config s fs) := by
  simp [load_config, save_config]

/-- Witness for C3 at the concrete defaults dictionary. -/
theorem load_after_save_roundtrip_witness :
    load_config (save_config ⟨0, 1, 8 / 10⟩ .missing) true
      = .ok (.config 0 1 (8 / 10), save_config ⟨0, 1, 8 / 10⟩ .missing) :=
  load_after_save_roundtrip ⟨0, 1, 8 / 10⟩ .missing true
    (by norm_num) (by norm_num) (by norm_num) (by norm_num) (by norm_num)

/-- C4 counterexample: a well-formed record with no `device_index` field
loads as the concrete index `0` (`config.get("device_index", 0)`), not as
an unset device index, so the claimed default "deviceIndex unset" is
false on the code. -/
theorem load_missing_device_index_counterexample :
    load_config (.wellFormed ⟨none, some 1, some (8 / 10)⟩) true
      = .ok (.config 0 1 (8 / 10), .wellFormed ⟨none, some 1, some (8 / 10)⟩)
  ∧ cfgGet_device_index (.config 0 1 (8 / 10)) = some 0
  ∧ cfgGet_device_index (.config 0 1 (8 / 10)) ≠ none := by
  refine ⟨by simp [load_config], rfl, by simp [cfgGet_device_index]⟩

/-- C4 amended: on a record that parses, each missing field falls back to
its code default — `device_index` to the concrete index `0`, `gain` to
`1.0`, `smoothing` to `0.8`. -/
theorem load_missing_fields_defaults :
    (∀ (r : ConfigRec) (rm : Bool),
        load_config (.wellFormed r) rm
          = .ok (.config (r.device_index.getD 0) (r.gain.getD 1)
              (r.smoothing.getD (8 / 10)), .wellFormed r))
  ∧ (∀ (g sm : ℚ) (rm : Bool),
        load_config (.wellFormed ⟨none, some g, some sm⟩) rm
          = .ok (.config 0 g sm, .wellFormed ⟨none, some g, some sm⟩))
  ∧ (∀ (d : Int) (sm : ℚ) (rm : Bool),
        load_config (.wellFormed ⟨some d, none, some sm⟩) rm
          = .ok (.config d 1 sm, .wellFormed ⟨some d, none, some sm⟩))
  ∧ (∀ (d : Int) (g : ℚ) (rm : Bool),
        load_config (.wellFormed ⟨some d, some g, none⟩) rm
          = .ok (.config d g (8 / 10), .wellFormed ⟨some d, some g, none⟩)) := by
  refine ⟨fun r rm => by simp [load_config], fun g sm rm => by simp [load_config],
    fun d sm rm => by simp [load_config], fun d g rm => by simp [load_config]⟩

/-- C5: with no persisted file, `load_config` returns the empty
dictionary, whose effective view at startup is exactly the defaults —
`device_index` unset, gain `1.0`, smoothing `0.8` — and startup then
enters the interactive device prompt rather than reusing a saved index. -/
theorem load_missing_file_gives_defaults :
    (∀ rm : Bool, load_config .missing rm = .ok (.empty, .missing))
  ∧ cfgGet_device_index .empty = none
  ∧ cfgGet_gain .empty = 1
  ∧ cfgGet_smoothing .empty = 8 / 10
  ∧ (∀ (devs : List Device) (inputs : List UserInput),
        valid_devices devs ≠ [] →
        startup_device .missing devs inputs
          = .ok (promptLoop (valid_devices devs) inputs)) := by
  refine ⟨fun rm => rfl, rfl, rfl, rfl, fun devs inputs h => ?_⟩
  simp [startup_device, load_config, cfgGet_device_index, get_device, h]

/-- Witness for C5's prompting conjunct at a concrete one-device table. -/
theorem load_missing_file_gives_defaults_witness :
    startup_device .missing [⟨"mic", 1⟩] [.empty]
      = .ok (promptLoop (valid_devices [⟨"mic", 1⟩]) [.empty]) :=
  load_missing_file_gives_defaults.2.2.2.2 [⟨"mic", 1⟩] [.empty] (by decide)

/-- C6: whatever the malformed content was, `load_config` (with the
removal succeeding) swallows the error, deletes the corrupt file and
returns the empty dictionary — whose effective view is the defaults — and
the next load finds no file and behaves identically. -/
theorem load_corrupt_resets_to_defaults :
    (∀ raw : String, load_config (.malformed raw) true = .ok (.empty, .missing))
  ∧ load_config .missing true = .ok (.empty, .missing)
  ∧ cfgGet_device_index .empty = none
  ∧ cfgGet_gain .empty = 1
  ∧ cfgGet_smoothing .empty = 8 / 10 := by
  exact ⟨fun raw => rfl, rfl, rfl, rfl, rfl⟩

/-- C10: `load_config` is not total on the corrupt-recovery path — when
the file exists, is malformed, and the deletion itself raises, the
exception propagates out of `load_config`; in every other situation
(removal succeeds, file missing, or file well-formed) it returns
normally. -/
theorem load_propagates_remove_failure :
    (∀ raw : String,
        load_config (.malformed raw) false = .error "os.remove raised")
  ∧ (∀ fs : FileState, ∃ v, load_config fs true = .ok v)
  ∧ (∀ rm : Bool, ∃ v, load_config .missing rm = .ok v)
  ∧ (∀ (r : ConfigRec) (rm : Bool),
        ∃ v, load_config (.wellFormed r) rm = .ok v) := by
  refine ⟨fun raw => rfl, fun fs => ?_, fun rm => ⟨_, rfl⟩, fun r rm => ⟨_, rfl⟩⟩
  cases fs with
  | missing => exact ⟨_, rfl⟩
  | wellFormed r => exact ⟨_, rfl⟩
  | malformed raw => exact ⟨_, rfl⟩

/-- C7: a saved index that is eligible is returned directly, for every
input stream (so no input is consumed); an empty line at the prompt
selects the first eligible device's index; a numeral outside the eligible
set re-prompts, as does non-numeric input; and the prompt only ever
returns an index of the eligible set. -/
theorem resolve_device_contract :
    (∀ (devs : List Device) (s : Int) (inputs : List UserInput),
        (valid_devices devs).any (fun dev => s == (dev.1 : Int)) = true →
        get_device devs (some s) inputs = .ok (some s))
  ∧ (∀ (devs : List Device) (rest : List UserInput),
        valid_devices devs ≠ [] →
        promptLoop (valid_devices devs) (.empty :: rest)
          = some ((valid_devices devs).headI.1 : Int))
  ∧ (∀ (vd : List (Nat × String)) (n : Int) (rest : List UserInput),
        vd.any (fun dev => n == (dev.1 : Int)) = false →
        promptLoop vd (.numeric n :: rest) = promptLoop vd rest)
  ∧ (∀ (vd : List (Nat × String)) (rest : List UserInput),
        promptLoop vd (.nonNumeric :: rest) = promptLoop vd rest)
  ∧ (∀ (vd : List (Nat × String)) (inputs : List UserInput) (n : Int),
        promptLoop vd inputs = some n →
        vd.any (fun dev => n == (dev.1 : Int)) = true) := by
  refine ⟨?_, ?_, ?_, ?_, fun vd inputs n h => promptLoop_sound vd inputs n h⟩
  · intro devs s inputs hmem
    have hne : valid_devices devs ≠ [] := by
      intro hnil
      rw [hnil] at hmem
      simp at hmem
    simp [get_device, hne, hmem]
  · intro devs rest hne
    obtain ⟨p, t, hpt⟩ : ∃ p t, valid_devices devs = p :: t := by
      cases hv : valid_devices devs with
      | nil => exact absurd hv hne
      | cons p t => exact ⟨p, t, rfl⟩
    rw [hpt]
    simp [promptLoop, parse_selection, List.headI]
  · intro vd n rest hout
    simp [promptLoop, parse_selection, hout]
  · intro vd rest
    simp [promptLoop, parse_selection]

/-- Witness for C7 at a concrete device table: input-incapable device 0
and microphone 1; the saved index 1 is returned directly, an empty line
selects index 1, the out-of-set numeral 5 re-prompts, and non-numeric
input re-prompts. -/
theorem resolve_device_contract_witness :
    get_device [⟨"out", 0⟩, ⟨"mic", 2⟩] (some 1) [] = .ok (some 1)
  ∧ promptLoop (valid_devices [⟨"out", 0⟩, ⟨"mic", 2⟩]) [.empty]
      = some ((valid_devices [⟨"out", 0⟩, ⟨"mic", 2⟩]).headI.1 : Int)
  ∧ promptLoop [(1, "mic")] [.numeric 5] = promptLoop [(1, "mic")] []
  ∧ promptLoop [(1, "mic")] [.nonNumeric] = promptLoop [(1, "mic")] [] :=
  ⟨resolve_device_contract.1 [⟨"out", 0⟩, ⟨"mic", 2⟩] 1 [] (by rfl),
   resolve_device_contract.2.1 [⟨"out", 0⟩, ⟨"mic", 2⟩] [] (by decide),
   resolve_device_contract.2.2.1 [(1, "mic")] 5 [] (by rfl),
   resolve_device_contract.2.2.2.1 [(1, "mic")] []⟩

/-- C8: when opening the input stream fails, `run`'s trace is exactly the
stream-open error report followed by one `save_config` of the current
settings — one save, no rendered frame — and `run` returns normally. -/
theorem run_stream_open_failure :
    ∀ (iters : Nat) (qblocks : List Block) (dev : Int) (g sm : ℚ),
      run false iters qblocks dev g sm
        = [.reportStreamError, .saveEvent dev g sm]
    ∧ (run false iters qblocks dev g sm).countP Event.isSave = 1
    ∧ (run false iters qblocks dev g sm).countP Event.isRender = 0 := by
  intro iters qblocks dev g sm
  refine ⟨rfl, ?_, ?_⟩ <;>
    simp [run, List.countP_cons, Event.isSave, Event.isRender]

/-- C9 (implicit): whenever `get_device` returns an index — through the
saved-index branch or the prompt loop — that index belongs to the
eligible set of input-capable devices. -/
theorem get_device_returns_eligible (devs : List Device) (saved : Option Int)
    (inputs : List UserInput) (n : Int)
    (h : get_device devs saved inputs = .ok (some n)) :
    (valid_devices devs).any (fun dev => n == (dev.1 : Int)) = true := by
  by_cases hnil : valid_devices devs = []
  · simp [get_device, hnil] at h
  · cases saved with
    | none =>
        simp only [get_device, if_neg hnil, Except.ok.injEq] at h
        exact promptLoop_sound _ _ _ h
    | some s =>
        simp only [get_device, if_neg hnil] at h
        by_cases hs : (valid_devices devs).any (fun dev => s == (dev.1 : Int)) = true
        · rw [if_pos hs] at h
          simp only [Except.ok.injEq, Option.some.injEq] at h
          rw [← h]
          exact hs
        · rw [if_neg hs] at h
          simp only [Except.ok.injEq] at h
          exact promptLoop_sound _ _ _ h

/-- Witness for C9 at a concrete call: saved index 1 on a table whose
only input-capable device is index 1. -/
theorem get_device_returns_eligible_witness :
    (valid_devices [⟨"out", 0⟩, ⟨"mic", 2⟩]).any
      (fun dev => (1 : Int) == (dev.1 : Int)) = true :=
  get_device_returns_eligible [⟨"out", 0⟩, ⟨"mic", 2⟩] (some 1) [] 1 (by rfl)

end CRTOsc
